import Mathlib

/-!
Verification of `doc-images.py`: a shallow embedding in Lean of the
per-image processing routine (`process_image`, `get_mime_type`,
`get_copyright`), the archive scanner (`process_tar`) and the manifest
aggregation step of `main`, together with theorems settling the spec's
claims about them.

Modelling conventions:
* Python byte strings are `List Nat`; Python exceptions are an `Except`
  error type; a function that Python lets raise is embedded with an
  `Except` result.
* External collaborators (PIL decoding, the `iscc` hash library, `ftfy`,
  `urllib`, the `json` codec, the wall clock) are fields of an `Env`
  record: the script only forwards to them, so their behaviour is kept
  abstract while the script's own control flow is embedded exactly.
* Python `dict`s are association lists (`lookupA` / `insertA` /
  `removeA` reproduce `d[k]`, `d[k] = v`, `d.pop(k)` on dicts, which
  hold at most one binding per key).
* String manipulations (`str.lower`, `str.rsplit`, `str.strip`,
  `str.replace`, `in`, `endswith`) are re-implemented structurally on
  `List Char` so that all definitions compute.
-/

namespace DocImages

/-- Python byte strings, as lists of byte values. -/
abbrev Bytes := List Nat

/-- The Python exceptions that the script can raise. -/
inductive PyErr where
  /-- Raised by unpacking `""` into `meta_id, _, _` (line 49). -/
  | valueError
  /-- Raised by `"other/" + None` in `get_mime_type` (line 81). -/
  | typeError
  /-- Raised by `assert key in cache` (line 150). -/
  | assertionError
  /-- Raised by `meta["url"]` when the field is missing (line 157). -/
  | keyError
  /-- Raised by `json.load` on malformed sidecar content (line 153). -/
  | jsonError
deriving DecidableEq

/-- Result of `img.getexif()`: either the tag table (values already
passed through `str(...)`), or a `SyntaxError` while reading. -/
inductive ExifResult where
  | ok (entries : List (Nat × String))
  | err
deriving DecidableEq

/-- A decoded PIL image: the detected format tag (`img.format`, `None`
for images without one) and its EXIF table.  Pixel content stays inside
the abstract `Env` functions that consume the image. -/
structure PILImage where
  format : Option String
  exif : ExifResult
deriving DecidableEq

/-- Association-list lookup, the model of Python `k in d` / `d[k]` on a
dict. -/
def lookupA {κ α : Type} [DecidableEq κ] (c : List (κ × α)) (k : κ) : Option α :=
  match c with
  | [] => none
  | (k', v) :: rest => if k' = k then some v else lookupA rest k

/-- Association-list overwrite-or-append, the model of `d[k] = v`. -/
def insertA {κ α : Type} [DecidableEq κ] (c : List (κ × α)) (k : κ) (v : α) :
    List (κ × α) :=
  match c with
  | [] => [(k, v)]
  | (k', v') :: rest => if k' = k then (k, v) :: rest else (k', v') :: insertA rest k v

/-- Association-list deletion, the model of `d.pop(k)`. -/
def removeA {κ α : Type} [DecidableEq κ] (c : List (κ × α)) (k : κ) : List (κ × α) :=
  match c with
  | [] => []
  | (k', v') :: rest => if k' = k then removeA rest k else (k', v') :: removeA rest k

/-- Parsed sidecar metadata: a JSON object with string fields. -/
abbrev Meta := List (String × String)

/-- The manifest record assembled by `process_image` (lines 55-65); the
`copyright` key is only present when `get_copyright` found one. -/
structure ManifestRecord where
  domain : String
  iscc : String
  timestamp : Int
  bytes : Nat
  checksum : String
  mimeType : String
  copyright : Option String
deriving DecidableEq

/-- The external collaborators of the script.  The script forwards to
these; their internals are outside the repository. -/
structure Env where
  /-- `PIL.Image.open(io.BytesIO(data))`: `none` models the
  `UnidentifiedImageError` / `OSError` raised on undecodable bytes. -/
  pilOpen : Bytes → Option PILImage
  /-- `img.convert("L").resize(ISCC_IMAGE_THUMB_SIZE, LANCZOS)`: `none`
  models an `OSError` (e.g. truncated stream) raised while loading,
  which the same `except` clause catches. -/
  convertResize : PILImage → Option PILImage
  /-- `iscc.meta_id(title, "")`, a 3-tuple whose head is the meta id. -/
  metaId : String → String → String × String × String
  /-- `iscc.content_id_image(img)`. -/
  contentIdImage : PILImage → String
  /-- `iscc.data_id(data)`. -/
  dataId : Bytes → String
  /-- `iscc.instance_id(data)`, returning `(instance_id, checksum)`. -/
  instanceId : Bytes → String × String
  /-- `urlparse(url).netloc`. -/
  urlNetloc : String → String
  /-- `ftfy.fix_text`. -/
  fixText : String → String
  /-- `int(time.time())`. -/
  timeNow : Int
  /-- `json.load` on a sidecar entry's bytes. -/
  jsonLoad : Bytes → Except PyErr Meta
  /-- `json.dumps` on an assembled record. -/
  jsonDumps : ManifestRecord → String

/-- Characters stripped by `str.strip()` (restricted to the ASCII
whitespace the inputs contain). -/
def stripStr (s : String) : String :=
  String.mk (((s.toList.dropWhile Char.isWhitespace).reverse.dropWhile
      Char.isWhitespace).reverse)

/-- Occurrence test for Python's `pat in s` on strings. -/
def containsSub (pat : List Char) : List Char → Bool
  | [] => pat.isPrefixOf ([] : List Char)
  | c :: rest => pat.isPrefixOf (c :: rest) || containsSub pat rest

/-- The fixed format→mime dictionary of `get_mime_type` (lines 75-81),
including the `None` key whose `"¡ERROR!"` sentinel the surrounding
call can never return (see `get_mime_type`). -/
def mimeDict : List (Option String × String) :=
  [(some "JPEG", "image/jpeg"), (some "PNG", "image/png"),
   (some "WEBP", "image/webp"), (some "GIF", "image/gif"),
   (none, "¡ERROR!")]

/-- Model of `get_mime_type` (lines 70-81).  Python evaluates the
`.get` default `"other/" + img.format` before the lookup, so a `None`
format raises `TypeError` there and the dictionary's `None` entry is
unreachable; a present format never reaches the `None` entry and gets
either its mapped mime type or the (eagerly computed) default. -/
def get_mime_type (img : PILImage) : Except PyErr String :=
  match img.format with
  | none => .error .typeError
  | some f => .ok ((lookupA mimeDict (some f)).getD ("other/" ++ f))

/-- Rejection test of `get_copyright` (line 100): trimmed length under
2 or containing the literal `"[None]"`. -/
def rejectValue (value : String) : Bool :=
  value.length < 2 || containsSub "[None]".toList value.toList

/-- One iteration of the tag loop of `get_copyright` (lines 96-102):
skip an absent tag, strip the value, reject it, or clean it. -/
def tryTag (env : Env) (entries : List (Nat × String)) (tag : Nat) : Option String :=
  match lookupA entries tag with
  | none => none
  | some raw =>
    let value := stripStr raw
    if rejectValue value then none else some (env.fixText value)

/-- Model of `get_copyright` (lines 84-104): a `SyntaxError` while
reading EXIF yields `None`; otherwise the Copyright tag (33432) is
tried before the Artist tag (315). -/
def get_copyright (env : Env) (img : PILImage) : Option String :=
  match img.exif with
  | .err => none
  | .ok entries =>
    match tryTag env entries 33432 with
    | some v => some v
    | none => tryTag env entries 315

/-- Model of `process_image` (lines 33-67).  The `try` block covers
decoding, `get_mime_type` (whose `TypeError` is not among the caught
exception types and so escapes) and convert/resize; decode failures
return the empty dict, modelled as `none`.  Line 49 unpacks
`iscc.meta_id(title, "") if title else ""` into three targets, so an
empty title unpacks the empty string and raises `ValueError`.
`timestamp or int(time.time())` substitutes the clock when the
argument is absent or falsy (i.e. `0`). -/
def process_image (env : Env) (data : Bytes) (title : String) (url : String)
    (timestamp : Option Int) : Except PyErr (Option ManifestRecord) :=
  match env.pilOpen data with
  | none => .ok none
  | some img0 =>
    match get_mime_type img0 with
    | .error e => .error e
    | .ok mime_type =>
      match env.convertResize img0 with
      | none => .ok none
      | some img =>
        if title = "" then .error .valueError
        else
          let meta_id := (env.metaId title "").1
          let content_id := env.contentIdImage img
          let data_id := env.dataId data
          let instance_id := (env.instanceId data).1
          let checksum := (env.instanceId data).2
          let domain := env.urlNetloc url
          let ts : Int :=
            match timestamp with
            | none => env.timeNow
            | some t => if t = 0 then env.timeNow else t
          .ok (some {
            domain := domain
            iscc := String.intercalate "-" [meta_id, content_id, data_id, instance_id]
            timestamp := ts
            bytes := data.length
            checksum := checksum
            mimeType := mime_type
            copyright := get_copyright env img })

/-! ### The archive scanner (`process_tar`, lines 121-167) -/

/-- Model of `str.lower()` (the entry names here are ASCII). -/
def lowerStr (s : String) : String :=
  String.mk (s.toList.map Char.toLower)

/-- Model of `str.endswith(suffix)`. -/
def endsWithL (s suffix : String) : Bool :=
  suffix.toList.isSuffixOf s.toList

/-- Dot-splitting helper: `splitDotAux l [] ` is Python `l.split(".")`. -/
def splitDotAux : List Char → List Char → List (List Char)
  | [], acc => [acc.reverse]
  | c :: rest, acc =>
    if c = '.' then acc.reverse :: splitDotAux rest []
    else splitDotAux rest (c :: acc)

/-- Joining with a separator (used to rebuild the kept segments). -/
def sepJoin (sep : List Char) : List (List Char) → List Char
  | [] => []
  | [x] => x
  | x :: y :: t => x ++ sep ++ sepJoin sep (y :: t)

/-- Model of `member_name.rsplit(".", maxsplit=2)[0]` (line 142): with
`n` dot-separated segments, the last `min 2 (n-1)` segments are cut
off and the rest are rejoined with dots. -/
def rsplitKeyL (l : List Char) : List Char :=
  let segs := splitDotAux l []
  sepJoin ['.'] (segs.take (max 1 (segs.length - 2)))

/-- String version of `rsplitKeyL`. -/
def rsplitKeyS (s : String) : String :=
  String.mk (rsplitKeyL s.toList)

/-- One member of a TAR archive: its stored name, its header
modification time (`member.mtime`) and its byte content. -/
structure TarMember where
  name : String
  mtime : Int
  content : Bytes
deriving DecidableEq

/-- The mutable state of one archive scan: the pairing buffer `cache`
(key → payload bytes) and the collected JSON `lines`. -/
structure ScanState where
  cache : List (String × Bytes)
  lines : List String
deriving DecidableEq

/-- The loop body of `process_tar` (lines 141-162) for one member: a
`.jpg` entry is buffered under its key; a `.json` entry asserts that
its key is buffered, pops the payload, parses the sidecar, requires a
`url` field, defaults the `caption`, runs `process_image` with the
member's mtime, and keeps the serialized record when it is non-empty. -/
def processMember (env : Env) (st : ScanState) (m : TarMember) :
    Except PyErr ScanState :=
  let member_name := lowerStr m.name
  let key := rsplitKeyS member_name
  let st1 : ScanState :=
    if endsWithL member_name ".jpg" then
      { st with cache := insertA st.cache key m.content }
    else st
  if endsWithL member_name ".json" then
    match lookupA st1.cache key with
    | none => .error .assertionError
    | some data =>
      let cache2 := removeA st1.cache key
      match env.jsonLoad m.content with
      | .error e => .error e
      | .ok meta =>
        match lookupA meta "url" with
        | none => .error .keyError
        | some url =>
          match process_image env data ((lookupA meta "caption").getD "") url
              (some m.mtime) with
          | .error e => .error e
          | .ok doc =>
            .ok { cache := cache2,
                  lines := match doc with
                    | some r => st1.lines ++ [env.jsonDumps r]
                    | none => st1.lines }
  else .ok st1

/-- The whole member loop of `process_tar`, from an empty buffer. -/
def scanEntries (env : Env) (entries : List TarMember) : Except PyErr ScanState :=
  entries.foldlM (processMember env) ⟨[], []⟩

/-- Fuelled core of Python `str.replace(".tar", "_doc.jsonl")`: scan
left to right, substitute each (non-overlapping) occurrence. -/
def replaceTarAux : Nat → List Char → List Char
  | _, [] => []
  | 0, l => l
  | fuel + 1, c :: rest =>
    if (".tar".toList).isPrefixOf (c :: rest) then
      "_doc.jsonl".toList ++ replaceTarAux fuel (rest.drop 3)
    else c :: replaceTarAux fuel rest

/-- Model of `filename.replace(".tar", "_doc.jsonl")` on characters
(the fuel `l.length` is enough: every step consumes ≥ 1 character). -/
def replaceTarL (l : List Char) : List Char :=
  replaceTarAux l.length l

/-- The per-archive output path computed twice in `process_tar`
(lines 127 and 164). -/
def docPath (filename : String) : String :=
  String.mk (replaceTarL filename.toList)

/-- The persisted side files, path → content. -/
structure FS where
  files : List (String × String)
deriving DecidableEq

/-- Model of `os.path.isfile` restricted to the modelled side files. -/
def isfile (fs : FS) (p : String) : Bool :=
  (lookupA fs.files p).isSome

/-- Model of `open(p, "w")` followed by writing `content`. -/
def writeFile (fs : FS) (p : String) (content : String) : FS :=
  ⟨insertA fs.files p content⟩

/-- Content of a side file, when present. -/
def fileContent (fs : FS) (p : String) : Option String :=
  lookupA fs.files p

/-- The newline-terminated lines written sequentially by
`doc.writelines(l + "\n" for l in lines)` (line 165). -/
def joinNl : List String → String
  | [] => ""
  | l :: rest => l ++ "\n" ++ joinNl rest

/-- Model of `process_tar` (lines 121-167): skip the archive when its
output file already exists, otherwise scan the members, write the
collected lines to the output file once, and return them. -/
def process_tar (env : Env) (fs : FS) (entries : List TarMember)
    (filename : String) : Except PyErr (FS × List String) :=
  if isfile fs (docPath filename) then .ok (fs, [])
  else
    match scanEntries env entries with
    | .error e => .error e
    | .ok st => .ok (writeFile fs (docPath filename) (joinNl st.lines), st.lines)

/-! ### The aggregation step of `main` (lines 192-199) -/

/-- The characters written for one record line: `f"  {ln},\n"`. -/
def lineChunk (ln : String) : List Char :=
  ("  " ++ ln ++ ",\n").toList

/-- Model of the manifest write of `main` (lines 193-199): `b"[\n"`,
then every line of every result as `"  {line},\n"`, then
`f.seek(-2, os.SEEK_CUR)` followed by `b"\n]"`, which overwrites the
last two characters in place. -/
def aggregateChars (results : List (List String)) : List Char :=
  let body := "[\n".toList ++
    (results.map (fun lines => (lines.map lineChunk).flatten)).flatten
  body.take (body.length - 2) ++ "\n]".toList

/-- First non-whitespace character of a character sequence. -/
def firstNonWs : List Char → Option Char
  | [] => none
  | c :: rest => if c.isWhitespace then firstNonWs rest else some c

/-- Necessary condition for a text to be a syntactically valid JSON
array: its first non-whitespace character is `[`. -/
def looksLikeJsonArray (l : List Char) : Bool :=
  firstNonWs l = some '['

/-- Modelled from the spec: the shape of "one syntactically valid JSON
array file, one object per line (pretty-indented)" over the given
serialized records — `[`, newline, the records two-space indented and
separated by `,\n`, newline, `]`. -/
def specArrayChars (ls : List String) : List Char :=
  "[\n".toList ++ sepJoin (",\n".toList) (ls.map (fun s => ("  " ++ s).toList)) ++
    "\n]".toList

/-- Splitting a character sequence at every newline (the reading
direction of newline-delimited JSON). -/
def splitOnNl : List Char → List (List Char)
  | [] => [[]]
  | c :: rest =>
    if c = '\n' then [] :: splitOnNl rest
    else
      match splitOnNl rest with
      | [] => [[c]]
      | p :: ps => (c :: p) :: ps

/-! ### Concrete instances for closed evaluations -/

/-- A concrete decodable JPEG image. -/
def imgJPEG : PILImage := ⟨some "JPEG", .ok []⟩

/-- An image with an unrecognized format tag. -/
def imgTIFF : PILImage := ⟨some "TIFF", .ok []⟩

/-- An image whose format was not detected (`img.format is None`). -/
def imgNoFormat : PILImage := ⟨none, .ok []⟩

/-- An image whose EXIF candidate values are all rejected: the
Copyright tag holds the placeholder and the Artist tag a single
character. -/
def imgRej : PILImage := ⟨some "JPEG", .ok [(33432, "[None]"), (315, "x")]⟩

/-- An image carrying both an Artist and a Copyright tag. -/
def imgAcc : PILImage := ⟨some "JPEG", .ok [(315, "Artist Name"), (33432, "  (c) A  ")]⟩

/-- A concrete environment for evaluating the model on closed inputs:
the byte string `[7]` decodes to `imgJPEG` and everything else fails
to decode; the hash components, parsed sidecar and clock are fixed. -/
def cEnv : Env where
  pilOpen := fun d => if d = [7] then some imgJPEG else none
  convertResize := fun i => some i
  metaId := fun _ _ => ("M", "", "")
  contentIdImage := fun _ => "C"
  dataId := fun _ => "D"
  instanceId := fun _ => ("I", "CS")
  urlNetloc := fun u => u
  fixText := fun s => s
  timeNow := 999
  jsonLoad := fun _ => .ok [("url", "u")]
  jsonDumps := fun _ => "R"

/-- A concrete payload entry. -/
def pJpg : TarMember := ⟨"x.jpg", 0, [1]⟩

/-- A concrete sidecar entry with a key no payload was buffered for. -/
def sJson : TarMember := ⟨"y.json", 0, [2]⟩

/-- The claim's rejection condition on one candidate tag value: the
trimmed value is the literal placeholder, or is shorter than 2
characters (an absent tag counts as rejected). -/
def claimRejects (o : Option String) : Bool :=
  o.all (fun v => stripStr v == "[None]" || decide ((stripStr v).length < 2))

/-- Whether a member is a payload entry (`member_name.endswith(".jpg")`). -/
def isJpgEntry (m : TarMember) : Bool :=
  endsWithL (lowerStr m.name) ".jpg"

/-- Whether a member is a sidecar entry (`member_name.endswith(".json")`). -/
def isJsonEntry (m : TarMember) : Bool :=
  endsWithL (lowerStr m.name) ".json"

/-- The pairing key of a member. -/
def entryKey (m : TarMember) : String :=
  rsplitKeyS (lowerStr m.name)

/-- Whether a member touches the pairing-buffer entry of key `k`. -/
def relevantTo (k : String) (m : TarMember) : Bool :=
  (isJpgEntry m || isJsonEntry m) && (entryKey m == k)

/-- Modelled from the spec: the buffer "contains exactly the payloads
whose sidecar has not yet been seen", i.e. key `k` is buffered iff the
last payload-or-sidecar entry with key `k` so far was a payload. -/
def bufferSpec (entries : List TarMember) (k : String) : Bool :=
  entries.foldl (fun b m => if relevantTo k m then isJpgEntry m else b) false

/-! ### Helper lemmas on the association-list dictionary model -/

theorem lookupA_insertA_self {κ α : Type} [DecidableEq κ] (c : List (κ × α))
    (k : κ) (v : α) : lookupA (insertA c k v) k = some v := by
  induction c with
  | nil => simp [insertA, lookupA]
  | cons kv rest ih =>
    obtain ⟨k', v'⟩ := kv
    by_cases h : k' = k
    · subst h; simp [insertA, lookupA]
    · simp [insertA, lookupA, h, ih]

theorem lookupA_insertA_ne {κ α : Type} [DecidableEq κ] (c : List (κ × α))
    (k k' : κ) (v : α) (h : k ≠ k') :
    lookupA (insertA c k v) k' = lookupA c k' := by
  induction c with
  | nil => simp [insertA, lookupA, h]
  | cons kv rest ih =>
    obtain ⟨k₀, v₀⟩ := kv
    by_cases h0 : k₀ = k
    · subst h0; simp [insertA, lookupA, h]
    · simp [insertA, lookupA, h0, ih]

theorem lookupA_removeA_self {κ α : Type} [DecidableEq κ] (c : List (κ × α))
    (k : κ) : lookupA (removeA c k) k = none := by
  induction c with
  | nil => simp [removeA, lookupA]
  | cons kv rest ih =>
    obtain ⟨k₀, v₀⟩ := kv
    by_cases h0 : k₀ = k
    · subst h0; simp [removeA, lookupA, ih]
    · simp [removeA, lookupA, h0, ih]

theorem lookupA_removeA_ne {κ α : Type} [DecidableEq κ] (c : List (κ × α))
    (k k' : κ) (h : k ≠ k') :
    lookupA (removeA c k) k' = lookupA c k' := by
  induction c with
  | nil => simp [removeA, lookupA]
  | cons kv rest ih =>
    obtain ⟨k₀, v₀⟩ := kv
    by_cases h0 : k₀ = k
    · subst h0; simp [removeA, lookupA, h, ih]
    · simp [removeA, lookupA, h0, ih]

/-! ### Helper lemmas on string replacement -/

theorem replaceTarAux_nil (fuel : Nat) : replaceTarAux fuel [] = [] := by
  cases fuel <;> rfl

theorem replaceTarAux_stem (fuel : Nat) (stem : List Char)
    (hfuel : stem.length + 4 ≤ fuel)
    (h : ∀ t ∈ stem.tails, t ≠ [] →
      List.isPrefixOf (".tar".toList) (t ++ ".tar".toList) = false) :
    replaceTarAux fuel (stem ++ ".tar".toList) = stem ++ "_doc.jsonl".toList := by
  induction fuel generalizing stem with
  | zero => omega
  | succ n ih =>
    cases stem with
    | nil =>
      simp only [List.nil_append]
      show replaceTarAux (n + 1) ('.' :: "tar".toList) = _
      rw [replaceTarAux]
      simp [replaceTarAux_nil]
    | cons c rest =>
      have hc : List.isPrefixOf (".tar".toList) ((c :: rest) ++ ".tar".toList) = false :=
        h (c :: rest) ((List.mem_tails _ _).mpr List.suffix_rfl) (by simp)
      rw [List.cons_append] at hc ⊢
      rw [replaceTarAux, hc]
      simp only [Bool.false_eq_true, if_false]
      rw [ih rest (by simp at hfuel ⊢; omega)
        (fun t ht hne => h t ((List.mem_tails _ _).mpr
          (((List.mem_tails _ _).mp ht).trans (List.suffix_cons c rest))) hne)]
      simp

theorem except_ok_bind {ε α β : Type} (a : α) (f : α → Except ε β) :
    (Except.ok a >>= f : Except ε β) = f a := rfl

/-! ### Helper lemmas on the copyright extractor -/

theorem tryTag_eq_none (env : Env) (entries : List (Nat × String)) (tag : Nat)
    (h : (lookupA entries tag).all (fun w => rejectValue (stripStr w)) = true) :
    tryTag env entries tag = none := by
  unfold tryTag
  cases hl : lookupA entries tag with
  | none => rfl
  | some v =>
    rw [hl] at h
    simp only [Option.all_some] at h
    simp [h]

theorem tryTag_eq_some (env : Env) (entries : List (Nat × String)) (tag : Nat)
    (v : String) (hl : lookupA entries tag = some v)
    (hv : rejectValue (stripStr v) = false) :
    tryTag env entries tag = some (env.fixText (stripStr v)) := by
  unfold tryTag
  rw [hl]
  simp [hv]

theorem claimRejects_all (o : Option String) (h : claimRejects o = true) :
    o.all (fun w => rejectValue (stripStr w)) = true := by
  cases o with
  | none => rfl
  | some v =>
    simp only [claimRejects, Option.all_some, Bool.or_eq_true, beq_iff_eq,
      decide_eq_true_eq] at h
    simp only [Option.all_some]
    rcases h with h | h
    · rw [rejectValue, h]
      decide
    · simp [rejectValue, h]

/-! ### Claim theorems -/

/-- C1: the claim says that for every decodable payload with an empty
title, per-item processing succeeds and yields a record with an
empty/placeholder meta component.  The code instead raises: line 49
evaluates `iscc.meta_id(title, "") if title else ""` and unpacks the
result into `meta_id, _, _`, so an empty title unpacks the empty
string into three targets and raises `ValueError`.  This theorem
evaluates the code at the failing inputs: every decodable payload
(open, mime sniff and convert/resize succeed) with an empty title
makes `process_image` raise. -/
theorem c1_empty_title_value_error (env : Env) (data : Bytes) (url : String)
    (ts : Option Int) (img img' : PILImage) (f : String)
    (hdec : env.pilOpen data = some img) (hfmt : img.format = some f)
    (hconv : env.convertResize img = some img') :
    process_image env data "" url ts = .error .valueError := by
  simp [process_image, hdec, get_mime_type, hfmt, hconv]

/-- C1 witness: the failing input evaluated on the concrete
environment. -/
theorem c1_empty_title_value_error_wit :
    process_image cEnv [7] "" "u" none = .error .valueError :=
  c1_empty_title_value_error cEnv [7] "u" none imgJPEG imgJPEG "JPEG"
    (by decide) rfl rfl

/-- C3 counterexample: `get_mime_type` does not lower-case unlisted
formats (`TIFF` maps to `other/TIFF`, not `other/tiff`), and on an
undetected (`None`) format it raises `TypeError` while eagerly
computing the `.get` default `"other/" + None`, instead of returning
the sentinel string. -/
theorem c3_mime_counterexample :
    get_mime_type imgTIFF = .ok "other/TIFF" ∧
    ("other/TIFF" : String) ≠ "other/tiff" ∧
    get_mime_type imgNoFormat = .error .typeError :=
  ⟨rfl, by decide, rfl⟩

/-- C3 amended: `get_mime_type` never raises on a detected format and
maps JPEG/PNG/WEBP/GIF to their mime types and any other detected
format to `other/<format>` with its original casing; when no format
was detected it raises `TypeError` (the dictionary's `¡ERROR!`
sentinel entry is unreachable). -/
theorem c3_mime_amended (img : PILImage) :
    get_mime_type img =
      match img.format with
      | none => .error .typeError
      | some f =>
        .ok (if f = "JPEG" then "image/jpeg"
          else if f = "PNG" then "image/png"
          else if f = "WEBP" then "image/webp"
          else if f = "GIF" then "image/gif"
          else "other/" ++ f) := by
  obtain ⟨fmt, ex⟩ := img
  cases fmt with
  | none => rfl
  | some f =>
    show Except.ok ((lookupA mimeDict (some f)).getD ("other/" ++ f)) = _
    by_cases h1 : f = "JPEG"
    · subst h1; rfl
    by_cases h2 : f = "PNG"
    · subst h2; rfl
    by_cases h3 : f = "WEBP"
    · subst h3; rfl
    by_cases h4 : f = "GIF"
    · subst h4; rfl
    have g1 : ("JPEG" : String) ≠ f := fun e => h1 e.symm
    have g2 : ("PNG" : String) ≠ f := fun e => h2 e.symm
    have g3 : ("WEBP" : String) ≠ f := fun e => h3 e.symm
    have g4 : ("GIF" : String) ≠ f := fun e => h4 e.symm
    simp [mimeDict, lookupA, g1, g2, g3, g4, h1, h2, h3, h4]

/-- C4 counterexample: with the clock at 999, a successful call with
the explicit timestamp argument `0` emits a record whose timestamp is
the clock value 999, not the provided 0: `timestamp or int(time.time())`
treats `0` as absent. -/
theorem c4_ts_counterexample :
    process_image cEnv [7] "t" "u" (some 0) =
      .ok (some { domain := "u", iscc := "M-C-D-I", timestamp := 999, bytes := 1,
                  checksum := "CS", mimeType := "image/jpeg", copyright := none }) ∧
    (999 : Int) ≠ 0 :=
  ⟨rfl, by decide⟩

/-- C4 amended: whenever `process_image` emits a record, its timestamp
equals the provided timestamp argument when that argument is present
and nonzero; the current time is substituted when the argument is
absent or equal to 0. -/
theorem c4_timestamp_amended (env : Env) (data : Bytes) (title url : String)
    (t : Option Int) (r : ManifestRecord)
    (h : process_image env data title url t = .ok (some r)) :
    (∀ v : Int, t = some v → v ≠ 0 → r.timestamp = v) ∧
    ((t = none ∨ t = some 0) → r.timestamp = env.timeNow) := by
  unfold process_image at h
  split at h
  · simp at h
  · split at h
    · simp at h
    · split at h
      · simp at h
      · split at h
        · simp at h
        · simp only [Except.ok.injEq, Option.some.injEq] at h
          subst h
          constructor
          · intro v hv hvz
            subst hv
            simp [hvz]
          · rintro (hv | hv) <;> subst hv <;> simp

/-- C4 amended witness: a present nonzero timestamp (5) is kept. -/
theorem c4_timestamp_amended_wit :
    ({ domain := "u", iscc := "M-C-D-I", timestamp := 5, bytes := 1,
       checksum := "CS", mimeType := "image/jpeg",
       copyright := none } : ManifestRecord).timestamp = 5 :=
  (c4_timestamp_amended cEnv [7] "t" "u" (some 5) _ rfl).1 5 rfl (by decide)

/-- C5: `process_image` on a payload whose decoding fails returns the
empty result and raises nothing; no record is produced, so processing
of the containing archive continues. -/
theorem c5_decode_failure_ok (env : Env) (data : Bytes) (title url : String)
    (ts : Option Int) (h : env.pilOpen data = none) :
    process_image env data title url ts = .ok none := by
  simp [process_image, h]

/-- C5 witness: the byte string `[9]` does not decode under the
concrete environment. -/
theorem c5_decode_failure_ok_wit :
    process_image cEnv [9] "" "u" none = .ok none :=
  c5_decode_failure_ok cEnv [9] "" "u" none (by decide)

/-- C7: a second `process_tar` invocation on the same archive, after a
first invocation that completed (whether it scanned or was itself
skipped), finds the per-archive output file in place, performs no work
— the file system is returned unchanged — and returns an empty line
list. -/
theorem c7_idempotent_rerun (env : Env) (fs : FS) (entries : List TarMember)
    (filename : String) (fs' : FS) (lines : List String)
    (h : process_tar env fs entries filename = .ok (fs', lines)) :
    process_tar env fs' entries filename = .ok (fs', []) := by
  unfold process_tar at h ⊢
  by_cases hf : isfile fs (docPath filename) = true
  · rw [hf] at h
    simp only [if_true, Except.ok.injEq, Prod.mk.injEq] at h
    obtain ⟨h1, -⟩ := h
    subst h1
    rw [hf]
    simp
  · rw [Bool.not_eq_true] at hf
    rw [hf] at h
    simp only [Bool.false_eq_true, if_false] at h
    cases hs : scanEntries env entries with
    | error e => rw [hs] at h; simp at h
    | ok st =>
      rw [hs] at h
      simp only [Except.ok.injEq, Prod.mk.injEq] at h
      obtain ⟨h1, -⟩ := h
      subst h1
      have hw : isfile (writeFile fs (docPath filename) (joinNl st.lines))
          (docPath filename) = true := by
        simp [isfile, writeFile, lookupA_insertA_self]
      rw [hw]
      simp

/-- C7 witness: rescanning `a.tar` after its first (empty) scan wrote
`a_doc.jsonl` performs no work. -/
theorem c7_idempotent_rerun_wit :
    process_tar cEnv ⟨[("a_doc.jsonl", "")]⟩ [] "a.tar" =
      .ok (⟨[("a_doc.jsonl", "")]⟩, []) :=
  c7_idempotent_rerun cEnv ⟨[]⟩ [] "a.tar" ⟨[("a_doc.jsonl", "")]⟩ [] rfl

/-- C8 counterexample: the output path is computed with
`str.replace(".tar", "_doc.jsonl")`, which substitutes every
occurrence, so for the archive path `my.tar.tar` the code produces
`my_doc.jsonl_doc.jsonl`, not the `my.tar_doc.jsonl` that replacing
only the final `.tar` extension would give. -/
theorem c8_docpath_counterexample :
    docPath "my.tar.tar" = "my_doc.jsonl_doc.jsonl" ∧
    ("my_doc.jsonl_doc.jsonl" : String) ≠ "my.tar_doc.jsonl" :=
  ⟨rfl, by decide⟩

/-- C8 amended: the output path replaces every occurrence of `.tar`
with `_doc.jsonl`; for an archive path whose only occurrence of
`.tar` is its final extension (no other occurrence starts anywhere in
the stem), this coincides with replacing the extension and leaves the
rest of the path unchanged. -/
theorem c8_docpath_amended (stem : List Char)
    (h : ∀ t ∈ stem.tails, t ≠ [] →
      List.isPrefixOf (".tar".toList) (t ++ ".tar".toList) = false) :
    docPath (String.mk (stem ++ ".tar".toList)) =
      String.mk (stem ++ "_doc.jsonl".toList) := by
  unfold docPath
  congr 1
  show replaceTarL (stem ++ ".tar".toList) = _
  unfold replaceTarL
  refine replaceTarAux_stem _ _ ?_ h
  simp

/-- C8 amended witness: the single-extension path `ab.tar`. -/
theorem c8_docpath_amended_wit : docPath "ab.tar" = "ab_doc.jsonl" := by
  have := c8_docpath_amended ("ab".toList) (by decide)
  simpa using this

/-- C9: with readable EXIF data, `get_copyright` returns nothing when
every candidate tag value is the `"[None]"` placeholder or has trimmed
length under 2 (absent tags counting as rejected); it returns the
cleaned (`ftfy.fix_text`-repaired) stripped value of the Copyright tag
whenever that one is accepted — preferring it over the Artist tag —
and the cleaned Artist value when the Copyright tag is absent or
rejected and the Artist value is accepted. -/
theorem c9_copyright (env : Env) (img : PILImage) (entries : List (Nat × String))
    (he : img.exif = .ok entries) :
    (claimRejects (lookupA entries 33432) = true →
     claimRejects (lookupA entries 315) = true →
     get_copyright env img = none) ∧
    (∀ v, lookupA entries 33432 = some v → rejectValue (stripStr v) = false →
      get_copyright env img = some (env.fixText (stripStr v))) ∧
    (∀ v, (lookupA entries 33432).all (fun w => rejectValue (stripStr w)) = true →
      lookupA entries 315 = some v → rejectValue (stripStr v) = false →
      get_copyright env img = some (env.fixText (stripStr v))) := by
  refine ⟨?_, ?_, ?_⟩
  · intro hA hB
    simp only [get_copyright, he]
    rw [tryTag_eq_none env entries 33432 (claimRejects_all _ hA),
      tryTag_eq_none env entries 315 (claimRejects_all _ hB)]
  · intro v hl hv
    simp only [get_copyright, he]
    rw [tryTag_eq_some env entries 33432 v hl hv]
  · intro v hrej hl hv
    simp only [get_copyright, he]
    rw [tryTag_eq_none env entries 33432 hrej,
      tryTag_eq_some env entries 315 v hl hv]

/-- C9 witness: the all-rejected image yields nothing; the image with
both tags yields the stripped Copyright value, not the Artist one. -/
theorem c9_copyright_wit :
    get_copyright cEnv imgRej = none ∧
    get_copyright cEnv imgAcc = some "(c) A" :=
  ⟨(c9_copyright cEnv imgRej [(33432, "[None]"), (315, "x")] rfl).1
      (by decide) (by decide),
   (c9_copyright cEnv imgAcc [(315, "Artist Name"), (33432, "  (c) A  ")] rfl).2.1
      "  (c) A  " rfl (by decide)⟩

/-- C6: within one archive, a sidecar entry stored before the payload
entry sharing its pairing key makes the scan fail with the fatal
pairing (assertion) error, while the same two entries in payload-first
order are processed successfully: the scan returns with an empty
buffer and the serialized record when the image decoded (no record
when it was filtered out). -/
theorem c6_pairing_order (env : Env) (p s : TarMember) (meta : Meta) (u : String)
    (doc : Option ManifestRecord)
    (h1 : endsWithL (lowerStr p.name) ".jpg" = true)
    (h2 : endsWithL (lowerStr p.name) ".json" = false)
    (h3 : endsWithL (lowerStr s.name) ".json" = true)
    (h4 : endsWithL (lowerStr s.name) ".jpg" = false)
    (hkey : rsplitKeyS (lowerStr s.name) = rsplitKeyS (lowerStr p.name))
    (hmeta : env.jsonLoad s.content = .ok meta)
    (hurl : lookupA meta "url" = some u)
    (hproc : process_image env p.content ((lookupA meta "caption").getD "") u
        (some s.mtime) = .ok doc) :
    scanEntries env [s, p] = .error .assertionError ∧
    scanEntries env [p, s] =
      .ok ⟨[], match doc with | some r => [env.jsonDumps r] | none => []⟩ := by
  constructor
  · show List.foldlM (processMember env) ⟨[], []⟩ [s, p] = _
    rw [List.foldlM_cons]
    have hs1 : processMember env ⟨[], []⟩ s = .error .assertionError := by
      simp [processMember, h3, h4, lookupA]
    rw [hs1]
    rfl
  · show List.foldlM (processMember env) ⟨[], []⟩ [p, s] = _
    rw [List.foldlM_cons]
    have hp1 : processMember env ⟨[], []⟩ p =
        .ok ⟨[(rsplitKeyS (lowerStr p.name), p.content)], []⟩ := by
      simp [processMember, h1, h2, insertA]
    rw [hp1]
    show List.foldlM (processMember env) _ [s] = _
    rw [List.foldlM_cons]
    have hs2 : processMember env ⟨[(rsplitKeyS (lowerStr p.name), p.content)], []⟩ s =
        .ok ⟨[], match doc with | some r => [env.jsonDumps r] | none => []⟩ := by
      cases doc with
      | none =>
        simp [processMember, h3, h4, hkey, lookupA, removeA, hmeta, hurl, hproc]
      | some r =>
        simp [processMember, h3, h4, hkey, lookupA, removeA, hmeta, hurl, hproc]
    rw [hs2]
    rfl

/-- C6 witness: concrete entries `X.jpg` / `x.json` under the concrete
environment (the payload does not decode, so the successful scan
collects no record). -/
theorem c6_pairing_order_wit :
    scanEntries cEnv [⟨"x.json", 7, [2]⟩, ⟨"X.jpg", 1, [1]⟩] = .error .assertionError ∧
    scanEntries cEnv [⟨"X.jpg", 1, [1]⟩, ⟨"x.json", 7, [2]⟩] = .ok ⟨[], []⟩ :=
  c6_pairing_order cEnv ⟨"X.jpg", 1, [1]⟩ ⟨"x.json", 7, [2]⟩ [("url", "u")] "u" none
    (by decide) (by decide) (by decide) (by decide) (by decide) rfl rfl rfl

/-- No member name ends in both `.jpg` and `.json`: the reversed
suffixes would force the same last character to be `g` and `n`. -/
theorem jpg_json_not_both (s : String) (h : endsWithL s ".jpg" = true) :
    endsWithL s ".json" = false := by
  unfold endsWithL at h ⊢
  simp only [List.isSuffixOf] at h ⊢
  rw [show (".jpg".toList.reverse) = ['g', 'p', 'j', '.'] from rfl] at h
  rw [show (".json".toList.reverse) = ['n', 'o', 's', 'j', '.'] from rfl]
  cases hr : s.toList.reverse with
  | nil => rw [hr] at h; simp [List.isPrefixOf] at h
  | cons c rest =>
    rw [hr] at h
    simp only [List.isPrefixOf, Bool.and_eq_true, beq_iff_eq] at h
    obtain ⟨rfl, -⟩ := h
    simp [List.isPrefixOf]

/-- One scanner step transforms the pairing buffer exactly as the spec
describes: a payload entry sets its key, a successfully processed
sidecar entry clears its key, and every other key is untouched. -/
theorem processMember_cache (env : Env) (st : ScanState) (m : TarMember)
    (st' : ScanState) (h : processMember env st m = .ok st') (k : String) :
    (lookupA st'.cache k).isSome =
      if relevantTo k m then isJpgEntry m else (lookupA st.cache k).isSome := by
  simp only [relevantTo, isJpgEntry, isJsonEntry, entryKey]
  cases hb1 : endsWithL (lowerStr m.name) ".jpg" with
  | true =>
    have hb2 := jpg_json_not_both _ hb1
    simp only [processMember, hb1, hb2, Bool.false_eq_true, if_false, if_true,
      Except.ok.injEq] at h
    subst h
    by_cases hk : rsplitKeyS (lowerStr m.name) = k
    · subst hk
      simp [lookupA_insertA_self, hb1]
    · rw [show (lookupA (insertA st.cache (rsplitKeyS (lowerStr m.name)) m.content)
          k) = lookupA st.cache k from lookupA_insertA_ne _ _ _ _ hk]
      simp [hk, hb1, hb2]
  | false =>
    cases hb2 : endsWithL (lowerStr m.name) ".json" with
    | false =>
      simp only [processMember, hb1, hb2, Bool.false_eq_true, if_false,
        Except.ok.injEq] at h
      subst h
      simp [hb1, hb2]
    | true =>
      simp only [processMember, hb1, hb2, Bool.false_eq_true, if_false, if_true] at h
      split at h
      · exact Except.noConfusion h
      · split at h
        · exact Except.noConfusion h
        · split at h
          · exact Except.noConfusion h
          · split at h
            · exact Except.noConfusion h
            · simp only [Except.ok.injEq] at h
              subst h
              by_cases hk : rsplitKeyS (lowerStr m.name) = k
              · subst hk
                simp [lookupA_removeA_self, hb1]
              · rw [show (lookupA (removeA st.cache (rsplitKeyS (lowerStr m.name)))
                    k) = lookupA st.cache k from lookupA_removeA_ne _ _ _ hk]
                simp [hk, hb1, hb2]

/-- The whole member loop computes the pairing buffer predicted by
folding the spec-side update over the processed members. -/
theorem scanFoldCache (env : Env) (entries : List TarMember) (st0 st' : ScanState)
    (h : List.foldlM (processMember env) st0 entries = .ok st') (k : String) :
    (lookupA st'.cache k).isSome =
      entries.foldl (fun b m => if relevantTo k m then isJpgEntry m else b)
        ((lookupA st0.cache k).isSome) := by
  induction entries generalizing st0 with
  | nil =>
    simp only [List.foldlM_nil] at h
    cases h
    simp
  | cons m ms ih =>
    rw [List.foldlM_cons] at h
    cases hm : processMember env st0 m with
    | error e => rw [hm] at h; exact Except.noConfusion h
    | ok st1 =>
      rw [hm] at h
      rw [except_ok_bind] at h
      rw [List.foldl_cons, ← processMember_cache env st0 m st1 hm k]
      exact ih st1 h

/-- C10: whenever the scan of an entry list succeeds, a key is in the
pairing buffer exactly when the most recent payload-or-sidecar entry
with that key was a payload (so a processed sidecar removes its
payload, and the buffer holds exactly the payloads whose sidecar has
not yet been seen); consequently appending a further sidecar entry
whose key the buffer does not hold — in particular a second sidecar
for an already-consumed key with no fresh payload in between — makes
the scan fail with the fatal pairing (assertion) error. -/
theorem c10_buffer_invariant (env : Env) (entries : List TarMember)
    (st : ScanState) (h : scanEntries env entries = .ok st) :
    (∀ k, (lookupA st.cache k).isSome = bufferSpec entries k) ∧
    (∀ m, isJsonEntry m = true → isJpgEntry m = false →
      bufferSpec entries (entryKey m) = false →
      scanEntries env (entries ++ [m]) = .error .assertionError) := by
  constructor
  · intro k
    exact scanFoldCache env entries ⟨[], []⟩ st h k
  · intro m hjson hjpg hbuf
    simp only [isJsonEntry] at hjson
    simp only [isJpgEntry] at hjpg
    have h2 : (lookupA st.cache (entryKey m)).isSome = bufferSpec entries (entryKey m) :=
      scanFoldCache env entries ⟨[], []⟩ st h (entryKey m)
    rw [hbuf] at h2
    have hnone : lookupA st.cache (entryKey m) = none :=
      Option.not_isSome_iff_eq_none.mp (by simp [h2])
    simp only [entryKey] at hnone
    unfold scanEntries at h ⊢
    rw [List.foldlM_append, h, except_ok_bind, List.foldlM_cons]
    have hstep : processMember env st m = .error .assertionError := by
      simp [processMember, hjpg, hjson, hnone]
    rw [hstep]
    rfl

/-- C10 witness: after scanning one payload `x.jpg`, its key is in the
buffer as the spec predicts, and appending the unmatched sidecar
`y.json` makes the scan fail. -/
theorem c10_buffer_invariant_wit :
    (lookupA (⟨[("x", [1])], []⟩ : ScanState).cache "x").isSome = bufferSpec [pJpg] "x" ∧
    scanEntries cEnv [pJpg, sJson] = .error .assertionError :=
  ⟨(c10_buffer_invariant cEnv [pJpg] ⟨[("x", [1])], []⟩ rfl).1 "x",
   (c10_buffer_invariant cEnv [pJpg] ⟨[("x", [1])], []⟩ rfl).2 sJson
     (by decide) (by decide) (by decide)⟩

/-! ### Helper lemmas on the aggregation step -/

theorem toList_append (s t : String) : (s ++ t).toList = s.toList ++ t.toList := rfl

/-- Flattening the per-line chunks of a nonempty line list equals the
comma-newline-separated join followed by one trailing `,\n`. -/
theorem lineChunks_eq (ls : List String) (hne : ls ≠ []) :
    (ls.map lineChunk).flatten =
      sepJoin (",\n".toList) (ls.map (fun s => ("  " ++ s).toList)) ++ [',', '\n'] := by
  induction ls with
  | nil => exact absurd rfl hne
  | cons a t ih =>
    cases t with
    | nil =>
      show lineChunk a ++ [] = sepJoin _ [("  " ++ a).toList] ++ [',', '\n']
      simp [lineChunk, sepJoin, toList_append]
    | cons b t2 =>
      rw [List.map_cons, List.flatten_cons, ih (by simp)]
      rw [List.map_cons (l := b :: t2)]
      show _ = sepJoin (",\n".toList)
        (("  " ++ a).toList :: (b :: t2).map (fun s => ("  " ++ s).toList)) ++ _
      rw [List.map_cons (l := t2)]
      show _ = (("  " ++ a).toList ++ ",\n".toList ++ sepJoin _ (_ :: _)) ++ _
      rw [List.map_cons (l := t2)] at ih
      simp [lineChunk, toList_append]

/-- The manifest write of `main` on at least one record: the trailing
`,\n` of the body is overwritten with `\n]`, yielding exactly the
spec's array shape. -/
theorem aggregateChars_eq (l1 l3 : List String) (hne : l1 ++ l3 ≠ []) :
    aggregateChars [l1, [], l3] = specArrayChars (l1 ++ l3) := by
  unfold aggregateChars
  simp only [List.map_cons, List.map_nil, List.flatten_cons, List.flatten_nil,
    List.append_nil, List.nil_append]
  rw [← List.flatten_append, ← List.map_append]
  rw [lineChunks_eq (l1 ++ l3) hne]
  rw [show "[\n".toList ++
      (sepJoin (",\n".toList) ((l1 ++ l3).map (fun s => ("  " ++ s).toList)) ++ [',', '\n']) =
    ("[\n".toList ++ sepJoin (",\n".toList) ((l1 ++ l3).map (fun s => ("  " ++ s).toList)))
      ++ [',', '\n'] by simp]
  rw [show (("[\n".toList ++ sepJoin (",\n".toList)
        ((l1 ++ l3).map (fun s => ("  " ++ s).toList))) ++ [',', '\n']).length - 2 =
      ("[\n".toList ++ sepJoin (",\n".toList)
        ((l1 ++ l3).map (fun s => ("  " ++ s).toList))).length by
    simp]
  rw [List.take_left]
  simp [specArrayChars]

/-- Splitting after a newline-free chunk followed by a newline peels
off exactly that chunk. -/
theorem splitOnNl_append (x rest : List Char) (hx : '\n' ∉ x) :
    splitOnNl (x ++ '\n' :: rest) = x :: splitOnNl rest := by
  induction x with
  | nil => simp [splitOnNl]
  | cons c cs ih =>
    have hc : ¬(c = '\n') := fun e => hx (by rw [e]; exact List.mem_cons_self _ _)
    rw [List.cons_append]
    show splitOnNl (c :: (cs ++ '\n' :: rest)) = _
    rw [splitOnNl]
    rw [if_neg (by simpa using hc)]
    rw [ih (fun hm => hx (List.mem_cons_of_mem _ hm))]

/-- The per-archive output file splits back into exactly its record
lines (plus the empty tail after the final newline): it is
newline-delimited, one record per line. -/
theorem splitOnNl_joinNl (lines : List String) (h : ∀ l ∈ lines, '\n' ∉ l.toList) :
    splitOnNl (joinNl lines).toList = lines.map String.toList ++ [[]] := by
  induction lines with
  | nil => rfl
  | cons a t ih =>
    have ha : '\n' ∉ a.toList := h a (List.mem_cons_self _ _)
    have ht : ∀ l ∈ t, '\n' ∉ l.toList := fun l hl => h l (List.mem_cons_of_mem _ hl)
    show splitOnNl ((a ++ "\n" ++ joinNl t)).toList = _
    rw [toList_append, toList_append]
    rw [show ("\n".toList : List Char) = ['\n'] from rfl]
    rw [List.append_assoc, List.singleton_append]
    rw [splitOnNl_append _ _ ha, ih ht]
    simp

/-- C2 counterexample: when the three archives yield 0, 0 and 0
records (e.g. every archive skipped by its idempotency marker), the
`f.seek(-2)` trick of `main` backs up over the opening `[` itself and
the written manifest is the two characters `\n]` — not a syntactically
valid JSON array (its first non-whitespace character is `]`). -/
theorem c2_zero_records_not_array :
    aggregateChars [[], [], []] = "\n]".toList ∧
    looksLikeJsonArray (aggregateChars [[], [], []]) = false :=
  ⟨rfl, rfl⟩

/-- C2 amended: for three archives yielding `N`, `0` and `M` records
with `N + M ≥ 1`, the aggregator writes exactly the valid JSON array
shape — `[`, the `N + M` records two-space-indented and separated by
`,\n`, and a closing `]` — while in the `N = M = 0` case the output is
`\n]`, not a JSON array; independently, a scan that actually ran
writes its per-archive output file as newline-delimited JSON, one
record line per processed image, and splitting that file at newlines
recovers exactly the record lines. -/
theorem c2_aggregate_amended (env : Env) (fs : FS) (entries : List TarMember)
    (filename : String) (fs' : FS) (lines : List String) (l1 l3 : List String)
    (hrun : process_tar env fs entries filename = .ok (fs', lines))
    (hnew : isfile fs (docPath filename) = false)
    (hnl : ∀ l ∈ lines, '\n' ∉ l.toList)
    (hne : l1 ++ l3 ≠ []) :
    aggregateChars [l1, [], l3] = specArrayChars (l1 ++ l3) ∧
    looksLikeJsonArray (aggregateChars [l1, [], l3]) = true ∧
    fileContent fs' (docPath filename) = some (joinNl lines) ∧
    splitOnNl (joinNl lines).toList = lines.map String.toList ++ [[]] := by
  have h1 := aggregateChars_eq l1 l3 hne
  refine ⟨h1, ?_, ?_, splitOnNl_joinNl lines hnl⟩
  · rw [h1]
    rfl
  · unfold process_tar at hrun
    rw [hnew] at hrun
    simp only [Bool.false_eq_true, if_false] at hrun
    cases hs : scanEntries env entries with
    | error e => rw [hs] at hrun; exact Except.noConfusion hrun
    | ok st =>
      rw [hs] at hrun
      simp only [Except.ok.injEq, Prod.mk.injEq] at hrun
      obtain ⟨hfs, hlines⟩ := hrun
      subst hfs
      subst hlines
      simp [fileContent, writeFile, lookupA_insertA_self]

/-- C2 amended witness: one record total, plus a concrete first run
writing an empty output file. -/
theorem c2_aggregate_amended_wit :
    aggregateChars [["A"], [], []] = specArrayChars (["A"] ++ []) ∧
    looksLikeJsonArray (aggregateChars [["A"], [], []]) = true ∧
    fileContent ⟨[("b_doc.jsonl", "")]⟩ (docPath "b.tar") = some (joinNl []) ∧
    splitOnNl (joinNl []).toList = ([] : List String).map String.toList ++ [[]] :=
  c2_aggregate_amended cEnv ⟨[]⟩ [] "b.tar" ⟨[("b_doc.jsonl", "")]⟩ [] ["A"] []
    rfl rfl (by simp) (by simp)

end DocImages
